import Mathlib

/-!
Verification development for the Speech-To-Text GUI repository
(`stt_gui`).  The definitions below are a shallow embedding of the
original Python sources, file by file:

* `stt_gui/stt/sentence_segmenter.py` — `SentenceSegmenter.is_boundary`;
* `stt_gui/stt/vosk_engine.py`        — `STTResult`, the final-result
  handler that filters empty text before enqueueing;
* `stt_gui/gui/app.py`                — `_handle_stt_result`, the
  wall-clock conversion, and the start-up worker `init_worker`;
* `stt_gui/gui/transcription_panel.py` and `stt_gui/gui/widgets.py` —
  the `"[<ts>] <speaker>: <text>"` line format and its regex parser;
* `stt_gui/gui/notes_panel.py`        — `add_note` / `get_notes`;
* `stt_gui/gui/speaker_manager.py`    — the speaker registry with its
  8-entry cyclic color palette.

Python floats are modelled as rationals (`ℚ`), Python strings either as
`String` or, where character-level parsing is proved about, as
`List Char`.  Tkinter widget state is modelled by the data it carries
(the list of inserted segments, the text content of the notes widget).
-/

namespace SttGui

/-! ### sentence_segmenter.py -/

/-- `WordTiming` dataclass: a word with start and end times (seconds). -/
structure WordTiming where
  word : String
  start : ℚ
  «end» : ℚ

/-- `SentenceSegmenter`: holds the configured pause threshold. -/
structure SentenceSegmenter where
  pause_threshold_sec : ℚ

/-- `SentenceSegmenter.is_boundary`: `gap = next_start - prev_end;
return gap >= self.pause_threshold_sec`. -/
def SentenceSegmenter.is_boundary (s : SentenceSegmenter)
    (prev_end next_start : ℚ) : Bool :=
  let gap := next_start - prev_end
  decide (gap ≥ s.pause_threshold_sec)

/-! ### Python string helpers

Python `str.strip()` and the regex class `\s` use the ASCII whitespace
characters space, tab, newline, carriage return, vertical tab and form
feed (inputs here are ASCII).  Lines are modelled as `List Char`.
-/

/-- Whitespace as recognised by Python `str.strip()` and regex `\s`. -/
def isPySpace (c : Char) : Bool :=
  c = ' ' || c = '\t' || c = '\n' || c = '\r' || c = '\x0b' || c = '\x0c'

/-- Python `str.strip()`: drop whitespace at both ends. -/
def pyStrip (l : List Char) : List Char :=
  ((l.dropWhile isPySpace).reverse.dropWhile isPySpace).reverse

/-- `str.strip()` on a `String`. -/
def pyStripStr (s : String) : String :=
  String.mk (pyStrip s.data)

/-! ### vosk_engine.py -/

/-- `STTResult` dataclass: `type` is the string `"partial"` or
`"final"`; times are engine-relative seconds, absent when Vosk gives no
word-level timing. -/
structure STTResult where
  type : String
  text : String
  start_time : Option ℚ := none
  end_time : Option ℚ := none

deriving instance DecidableEq for STTResult

/-- One entry of the raw Vosk `"result"` word list, after the JSON
accessors `word.get("start", 0.0)` / `word.get("end", 0.0)` supplied
their defaults. -/
structure RawWord where
  start : ℚ
  «end» : ℚ

/-- A raw final Vosk result: `raw.get("text", "")` and
`raw.get("result", [])`. -/
structure RawFinal where
  text : String
  result : List RawWord

/-- `VoskEngine._handle_final_result`: strip the text; if empty, return
without touching the result queue; otherwise take the first word's start
and the last word's end (absent when the word list is empty) and enqueue
a `"final"` `STTResult`.  The queue is modelled as the list of enqueued
results. -/
def handleFinalResult (raw : RawFinal) (q : List STTResult) : List STTResult :=
  let text := pyStripStr raw.text
  if text = "" then q
  else
    match raw.result with
    | [] => q ++ [⟨"final", text, none, none⟩]
    | w :: ws => q ++ [⟨"final", text, some w.start, some ((ws.getLastD w).«end»)⟩]

/-! ### app.py and transcription_panel.py : the transcript accumulator

`SpeechToTextApp._handle_stt_result` plus the `TranscriptionPanel`
state it drives.  The panel's sentence widget is modelled by the list
of inserted segments; the live label by its text.
-/

/-- A finalized transcript segment as inserted by
`TranscriptionPanel.add_final_sentence` /
`TimestampedText.insert_sentence`. -/
structure TranscriptSegment where
  speaker_name : String
  speaker_color : String
  start_wall_time : Option ℚ
  end_wall_time : Option ℚ
  text : String

deriving instance DecidableEq for TranscriptSegment

/-- App + transcription-panel state touched by `_handle_stt_result`. -/
structure AppState where
  segments : List TranscriptSegment
  liveText : String
  stream_start_wall_time : Option ℚ
  activeName : String
  activeColor : String

deriving instance DecidableEq for AppState

/-- `TranscriptionPanel.__init__` defaults (`"Unknown"`, `"#000000"`)
together with the app's initial `_stream_start_wall_time = None`. -/
def initialAppState : AppState :=
  ⟨[], "", none, "Unknown", "#000000"⟩

/-- `TranscriptionPanel.update_active_speaker`. -/
def updateActiveSpeaker (st : AppState) (name color : String) : AppState :=
  { st with activeName := name, activeColor := color }

/-- The wall-clock conversion in `_handle_stt_result`: both
`real_start` and `real_end` stay `None` unless the stream start time
and both relative times are known. -/
def wallTimes (s a b : Option ℚ) : Option ℚ × Option ℚ :=
  match s, a, b with
  | some s, some a, some b => (some (s + a), some (s + b))
  | _, _, _ => (none, none)

/-- `TranscriptionPanel._format_timestamp` (also
`TimestampedText._format_timestamp`): `"unknown"` when either bound is
absent, otherwise `fmt(start) ++ "-" ++ fmt(end)` where `fmt` is the
local-time `"%H:%M:%S.%f"` rendering, an external `datetime` call kept
abstract as a parameter. -/
def formatTimestamp (fmt : ℚ → String) (s e : Option ℚ) : String :=
  match s, e with
  | some a, some b => fmt a ++ "-" ++ fmt b
  | _, _ => "unknown"

/-- `SpeechToTextApp._handle_stt_result`: a `"partial"` result replaces
the live label text (empty text clears it); a `"final"` result appends
a segment attributed to the panel's current active speaker, with the
converted wall-clock times, and clears the live label. -/
def handleSTTResult (st : AppState) (r : STTResult) : AppState :=
  let times := wallTimes st.stream_start_wall_time r.start_time r.end_time
  if r.type = "partial" then
    { st with liveText := r.text }
  else if r.type = "final" then
    { st with
      segments := st.segments ++
        [⟨st.activeName, st.activeColor, times.1, times.2, r.text⟩],
      liveText := "" }
  else st

/-- Draining a list of results through `_handle_stt_result` in order
(the poll loop delivers queue contents FIFO). -/
def processResults (st : AppState) : List STTResult → AppState
  | [] => st
  | r :: rs => processResults (handleSTTResult st r) rs

/-! ### speaker_manager.py : the speaker registry

`SpeakerManager` stores `_speakers` (an insertion-ordered dict from
name to color; the button object is display-only), `_active_speaker`,
and an `itertools.cycle` over an 8-color palette, modelled by the count
of colors handed out so far.  The spec's error taxonomy maps the
duplicate-name `messagebox.showerror` report to `DuplicateSpeakerError`;
the code paths that report no error produce `none`.
-/

/-- Error taxonomy of the spec for the speaker registry. -/
inductive SpeakerError where
  | duplicateSpeaker
  | unknownSpeaker

deriving instance DecidableEq for SpeakerError

/-- The fixed 8-entry palette fed to `itertools.cycle`. -/
def color_palette : List String :=
  ["#1f77b4", "#ff7f0e", "#2ca02c", "#d62728",
   "#9467bd", "#8c564b", "#e377c2", "#7f7f7f"]

/-- `next(self._color_cycle)` after `k` previous draws. -/
def nextColor (k : Nat) : String :=
  color_palette.getD (k % color_palette.length) ""

/-- Registry state: insertion-ordered `(name, color)` pairs, the active
speaker, and the position of the color cycle. -/
structure SpeakerRegistry where
  speakers : List (String × String)
  active : Option String
  cycleIndex : Nat

deriving instance DecidableEq for SpeakerRegistry

/-- Registry with no speakers (`SpeakerManager.__init__`). -/
def emptyRegistry : SpeakerRegistry := ⟨[], none, 0⟩

/-- The dict's key view, in insertion order (`get_speakers`). -/
def SpeakerRegistry.names (st : SpeakerRegistry) : List String :=
  st.speakers.map Prod.fst

/-- `SpeakerManager.get_speaker_color`: dict lookup, black by default. -/
def getSpeakerColor (st : SpeakerRegistry) (name : String) : String :=
  match st.speakers.lookup name with
  | none => "#000000"
  | some c => c

/-- `SpeakerManager._set_active_speaker`: an unknown name is a silent
early `return` (the code reports no error); a known name becomes the
single active speaker (the button restyling and the
`on_active_speaker_changed` callback carry `(name, color)` and do not
change registry state). -/
def setActiveSpeaker (st : SpeakerRegistry) (name : String) :
    Option SpeakerError × SpeakerRegistry :=
  if name ∈ st.names then (none, { st with active := some name })
  else (none, st)

/-- `SpeakerManager._on_add_speaker_clicked_with_name` followed by
`_add_speaker`: a duplicate name is reported
(`messagebox.showerror` ≙ `DuplicateSpeakerError`) before any color is
drawn and the registry is left untouched; otherwise the next palette
color is drawn, the speaker is inserted at the end, and
`set_active_speaker(name)` makes it active. -/
def addSpeaker (st : SpeakerRegistry) (name : String) :
    Option SpeakerError × SpeakerRegistry :=
  if name ∈ st.names then (some .duplicateSpeaker, st)
  else
    let color := nextColor st.cycleIndex
    let st1 : SpeakerRegistry :=
      { st with speakers := st.speakers ++ [(name, color)],
                cycleIndex := st.cycleIndex + 1 }
    (none, (setActiveSpeaker st1 name).2)

/-- A sequence of programmatic `add` calls, in order. -/
def foldAdd (st : SpeakerRegistry) (ns : List String) : SpeakerRegistry :=
  ns.foldl (fun s n => (addSpeaker s n).2) st

/-- The colors the cycle hands to a run of successful adds starting at
cycle position `k`, paired with the names in order. -/
def withColors : Nat → List String → List (String × String)
  | _, [] => []
  | k, n :: rest => (n, nextColor k) :: withColors (k + 1) rest

/-! ### widgets.py / transcription_panel.py : the transcript line form

`TimestampedText.insert_sentence` writes the line
`"[<timestamp>] <speaker>: " + text`, and
`TranscriptionPanel.get_sentences` parses each line with the regex
`\[(.*?)\]\s+([^:]+):\s*(.*)` (then `group(2).strip()`).  The parser
below follows the regex engine's preferred path — lazy `(.*?)` stops at
the first `]`, greedy `\s+`, `[^:]+`, `\s*` take maximal runs; on every
line where this path matches, Python's `re.match` returns exactly these
groups, because backtracking only happens after the preferred path
fails.
-/

/-- `f"[{timestamp_str}] {speaker_name}: "` followed by the text. -/
def formatLine (ts sp tx : List Char) : List Char :=
  '[' :: ts ++ ']' :: ' ' :: sp ++ ':' :: ' ' :: tx

/-- `\[(.*?)\]` after the opening `[`: the (lazy) prefix before the
first `]`, and the remainder after it. -/
def splitAtRBracket : List Char → Option (List Char × List Char)
  | [] => none
  | c :: rest =>
    if c = ']' then some ([], rest)
    else
      match splitAtRBracket rest with
      | none => none
      | some (ts, r) => some (c :: ts, r)

/-- `re.match(r"\[(.*?)\]\s+([^:]+):\s*(.*)", line)` with groups
`(group(1), group(2).strip(), group(3))`. -/
def parseSentenceLine (line : List Char) :
    Option (List Char × List Char × List Char) :=
  match line with
  | [] => none
  | c0 :: rest =>
    if c0 = '[' then
      match splitAtRBracket rest with
      | none => none
      | some (ts, rest1) =>
        if (rest1.takeWhile isPySpace).isEmpty then none
        else
          let rest2 := rest1.dropWhile isPySpace
          let sp := rest2.takeWhile (fun c => c ≠ ':')
          if sp.isEmpty then none
          else
            match rest2.dropWhile (fun c => c ≠ ':') with
            | [] => none
            | c1 :: rest3 =>
              if c1 = ':' then some (ts, pyStrip sp, rest3.dropWhile isPySpace)
              else none
    else none

/-! ### notes_panel.py

The notes widget content is a character list.  `add_note` appends
`f"[{timestamp_str}] {speaker_name}: "` (the color only styles a tag)
followed by `text + "\n\n"`.  `get_notes` strips the whole content,
splits it into blocks on `re.split(r"\n\s*\n", ...)`, and parses each
block: first line against `\[(.*?)\]\s+([^:]+):\s*`, remaining lines
joined with newlines and stripped as the note text.
-/

/-- `NotesPanel.add_note` (speaker color styles a display tag only). -/
def addNote (content : List Char)
    (speaker_name _speaker_color timestamp_str text : List Char) : List Char :=
  content ++ ('[' :: timestamp_str ++ ']' :: ' ' :: speaker_name ++ [':', ' '])
    ++ text ++ ['\n', '\n']

/-- After the leading `\n` of a `\n\s*\n` separator: greedy `\s*` with
backtracking matches through the last `\n` of the following whitespace
run, provided that run contains one. -/
def matchSepTail (rest : List Char) : Option (List Char) :=
  let ws := rest.takeWhile isPySpace
  if '\n' ∈ ws then
    some (rest.drop (ws.length - (ws.reverse.takeWhile (fun c => c ≠ '\n')).length))
  else none

/-- Leftmost match of `\n\s*\n`: the text before the separator and the
text after it. -/
def findSep : List Char → Option (List Char × List Char)
  | [] => none
  | c :: rest =>
    if c = '\n' then
      match matchSepTail rest with
      | some after => some ([], after)
      | none =>
        match findSep rest with
        | some (b, a) => some (c :: b, a)
        | none => none
    else
      match findSep rest with
      | some (b, a) => some (c :: b, a)
      | none => none

/-- `re.split(r"\n\s*\n", content)`, fuelled by the input length (each
separator consumes at least two characters). -/
def splitBlankAux : Nat → List Char → List (List Char)
  | 0, l => [l]
  | fuel + 1, l =>
    match findSep l with
    | none => [l]
    | some (b, a) => b :: splitBlankAux fuel a

/-- `re.split(r"\n\s*\n", content)`. -/
def reSplitBlank (l : List Char) : List (List Char) :=
  splitBlankAux l.length l

/-- `str.split("\n")` on a character list. -/
def splitOnNl : List Char → List (List Char)
  | [] => [[]]
  | x :: r =>
    match splitOnNl r with
    | [] => [[]]
    | p :: ps => if x = '\n' then [] :: p :: ps else (x :: p) :: ps

/-- Python `str.splitlines()` for `\n`-separated text: like splitting
on `\n` but without a trailing empty line. -/
def splitLinesPy (l : List Char) : List (List Char) :=
  if l = [] then []
  else if l.getLast? = some '\n' then (splitOnNl l).dropLast
  else splitOnNl l

/-- `re.match(r"\[(.*?)\]\s+([^:]+):\s*", header)` with groups
`(group(1), group(2).strip())`; the trailing `\s*` and anything after
the match are discarded. -/
def parseNoteHeader (line : List Char) : Option (List Char × List Char) :=
  match line with
  | [] => none
  | c0 :: rest =>
    if c0 = '[' then
      match splitAtRBracket rest with
      | none => none
      | some (ts, rest1) =>
        if (rest1.takeWhile isPySpace).isEmpty then none
        else
          let rest2 := rest1.dropWhile isPySpace
          let sp := rest2.takeWhile (fun c => c ≠ ':')
          if sp.isEmpty then none
          else
            match rest2.dropWhile (fun c => c ≠ ':') with
            | [] => none
            | c1 :: _ => if c1 = ':' then some (ts, pyStrip sp) else none
    else none

/-- `NotesPanel.get_notes`: returns `(timestamp, speaker, text)` per
block, skipping empty or unparsable blocks. -/
def getNotes (content : List Char) : List (List Char × List Char × List Char) :=
  let content1 := pyStrip content
  if content1 = [] then []
  else
    (reSplitBlank content1).filterMap (fun block =>
      let block1 := pyStrip block
      if block1 = [] then none
      else
        match splitLinesPy block1 with
        | [] => none
        | header :: body =>
          match parseNoteHeader header with
          | none => none
          | some (ts, sp) =>
            some (ts, sp, pyStrip (List.intercalate ['\n'] body)))

/-! ### app.py `_start_transcription` / `init_worker`

The background worker creates the audio stream, creates the Vosk
engine (model load), records the wall-clock start time, starts the
audio stream, then starts the engine; any exception jumps to one
handler that clears `_is_running` and `_stream_start_wall_time` and
reports the error — it stops nothing.  Each step's possible external
failure is an explicit boolean parameter. -/

/-- The session state `init_worker` manipulates: whether the audio
stream and the engine are running, the app's `_is_running` flag, and
`_stream_start_wall_time`. -/
structure SessionState where
  audioRunning : Bool
  engineRunning : Bool
  isRunning : Bool
  streamStart : Option ℚ

deriving instance DecidableEq for SessionState

/-- A session before any start attempt. -/
def freshSession : SessionState := ⟨false, false, false, none⟩

/-- The `except` handler of `init_worker`: reset the two flags and
schedule the error dialog (the `Bool` records that the failure was
reported). -/
def startFailureHandler (st : SessionState) : SessionState × Bool :=
  ({ st with isRunning := false, streamStart := none }, true)

/-- `init_worker`, with one boolean per fallible external step
(`AudioStream(...)`, `VoskEngine(...)` model load,
`audio_stream.start()`, `vosk_engine.start()`); `false` means that step
raised. -/
def initWorker (st : SessionState) (wall : ℚ)
    (audioCreateOk engineCreateOk audioStartOk engineStartOk : Bool) :
    SessionState × Bool :=
  if !audioCreateOk then startFailureHandler st
  else if !engineCreateOk then startFailureHandler st
  else
    let st1 := { st with streamStart := some wall }
    if !audioStartOk then startFailureHandler st1
    else
      let st2 := { st1 with audioRunning := true }
      if !engineStartOk then startFailureHandler st2
      else ({ st2 with engineRunning := true, isRunning := true }, false)

/-! ## Helper lemmas -/

theorem lookup_eq_none_of_not_mem_keys (l : List (String × String)) (name : String)
    (h : name ∉ l.map Prod.fst) : l.lookup name = none := by
  induction l with
  | nil => rfl
  | cons kv rest ih =>
    obtain ⟨k, v⟩ := kv
    have hk : ¬ (name == k) = true := by
      simp only [beq_iff_eq]
      intro e
      exact h (by simp [e])
    have hrest : name ∉ rest.map Prod.fst := fun m => h (by simp [m])
    simp [List.lookup, hk, ih hrest]

theorem addSpeaker_of_not_mem (st : SpeakerRegistry) (n : String)
    (h : n ∉ st.names) :
    (addSpeaker st n).2 =
      ⟨st.speakers ++ [(n, nextColor st.cycleIndex)], some n, st.cycleIndex + 1⟩ := by
  have hmem : n ∈ (SpeakerRegistry.mk
      (st.speakers ++ [(n, nextColor st.cycleIndex)]) st.active
      (st.cycleIndex + 1)).names := by
    simp [SpeakerRegistry.names]
  simp [addSpeaker, h, setActiveSpeaker, hmem]

theorem withColors_length (ns : List String) : ∀ k, (withColors k ns).length = ns.length := by
  induction ns with
  | nil => intro k; rfl
  | cons n rest ih => intro k; simp [withColors, ih]

theorem withColors_getD (ns : List String) :
    ∀ k i, i < ns.length →
      (withColors k ns).getD i ("", "") = (ns.getD i "", nextColor (k + i)) := by
  induction ns with
  | nil => intro k i hi; exact absurd hi (by simp)
  | cons n rest ih =>
    intro k i hi
    cases i with
    | zero => simp [withColors]
    | succ j =>
      have hj : j < rest.length := by simpa using hi
      have := ih (k + 1) j hj
      simp only [withColors, List.getD_cons_succ, this]
      have : k + 1 + j = k + (j + 1) := by omega
      rw [this]

theorem foldAdd_spec (ns : List String) : ∀ st : SpeakerRegistry,
    (∀ n ∈ ns, n ∉ st.names) → ns.Nodup →
    foldAdd st ns =
      ⟨st.speakers ++ withColors st.cycleIndex ns,
       if ns.isEmpty then st.active else some (ns.getLastD ""),
       st.cycleIndex + ns.length⟩ := by
  induction ns with
  | nil =>
    intro st _ _
    simp [foldAdd, withColors]
  | cons n rest ih =>
    intro st h1 h2
    have hn : n ∉ st.names := h1 n (List.mem_cons_self n rest)
    have hstep : foldAdd st (n :: rest) = foldAdd (addSpeaker st n).2 rest := rfl
    rw [hstep, addSpeaker_of_not_mem st n hn]
    have hnd : rest.Nodup := h2.of_cons
    have hnr : n ∉ rest := by
      have := List.nodup_cons.mp h2
      exact this.1
    have hdisj : ∀ m ∈ rest,
        m ∉ (SpeakerRegistry.mk (st.speakers ++ [(n, nextColor st.cycleIndex)])
          (some n) (st.cycleIndex + 1)).names := by
      intro m hm
      simp only [SpeakerRegistry.names, List.map_append]
      intro hmem
      rcases List.mem_append.mp hmem with hL | hR
      · exact h1 m (List.mem_cons_of_mem n hm) hL
      · simp at hR
        exact hnr (hR ▸ hm)
    rw [ih _ hdisj hnd]
    simp only [SpeakerRegistry.mk.injEq]
    refine ⟨?_, ?_, ?_⟩
    · simp [withColors, List.append_assoc]
    · cases rest with
      | nil => simp
      | cons r rs => simp [List.getLastD_cons]
    · simp only [List.length_cons]
      omega

theorem takeWhile_append_stop {p : Char → Bool} {x : Char} (a b : List Char)
    (ha : ∀ c ∈ a, p c = true) (hx : p x = false) :
    (a ++ x :: b).takeWhile p = a := by
  induction a with
  | nil => simp [List.takeWhile_cons, hx]
  | cons d ds ih =>
    have hd := ha d (List.mem_cons_self d ds)
    simp [List.takeWhile_cons, hd,
      ih (fun e he => ha e (List.mem_cons_of_mem d he))]

theorem dropWhile_append_stop {p : Char → Bool} {x : Char} (a b : List Char)
    (ha : ∀ c ∈ a, p c = true) (hx : p x = false) :
    (a ++ x :: b).dropWhile p = x :: b := by
  induction a with
  | nil => simp [List.dropWhile_cons, hx]
  | cons d ds ih =>
    have hd := ha d (List.mem_cons_self d ds)
    simp [List.dropWhile_cons, hd,
      ih (fun e he => ha e (List.mem_cons_of_mem d he))]

theorem dropWhile_of_takeWhile_nil {p : Char → Bool} :
    ∀ l : List Char, l.takeWhile p = [] → l.dropWhile p = l
  | [], _ => rfl
  | c :: cs, h => by
    by_cases hp : p c
    · simp [List.takeWhile_cons, hp] at h
    · simp [List.dropWhile_cons, hp]

theorem head_not_of_takeWhile_nil {p : Char → Bool} (c : Char) (cs : List Char)
    (h : (c :: cs).takeWhile p = []) : p c = false := by
  by_cases hp : p c
  · simp [List.takeWhile_cons, hp] at h
  · simpa using hp

theorem pyStrip_eq_self (l : List Char) (h1 : l.takeWhile isPySpace = [])
    (h2 : l.reverse.takeWhile isPySpace = []) : pyStrip l = l := by
  unfold pyStrip
  rw [dropWhile_of_takeWhile_nil l h1,
      dropWhile_of_takeWhile_nil l.reverse h2, List.reverse_reverse]

theorem splitAtRBracket_append (ts : List Char) (r : List Char) (h : ']' ∉ ts) :
    splitAtRBracket (ts ++ ']' :: r) = some (ts, r) := by
  induction ts with
  | nil => simp [splitAtRBracket]
  | cons d ds ih =>
    have hd : d ≠ ']' := fun e => h (by simp [e])
    have h' : ']' ∉ ds := fun m => h (List.mem_cons_of_mem d m)
    simp [splitAtRBracket, hd, ih h']

/-! ## Claim theorems -/

/-- C1: `is_boundary(prev_end, next_start)` of a segmenter constructed
with `threshold` returns true iff `next_start - prev_end >= threshold`,
for all rational inputs, negative gaps and a zero threshold included;
as a Lean function it is pure and total by construction. -/
theorem c1_is_boundary_iff (threshold prev_end next_start : ℚ) :
    (SentenceSegmenter.mk threshold).is_boundary prev_end next_start = true ↔
      next_start - prev_end ≥ threshold := by
  simp [SentenceSegmenter.is_boundary]

/-- Witness for C1 at `threshold = 1`, `prev_end = 0`, `next_start = 2`. -/
theorem c1_witness : (2 : ℚ) - 0 ≥ 1 :=
  (c1_is_boundary_iff 1 0 2).mp (by norm_num [SentenceSegmenter.is_boundary])

/-- C2: a Final result appends exactly one segment attributed to the
active-speaker snapshot whose wall-clock times are
`stream_start + relative` when the stream start and both relative times
are known and absent otherwise (absent times render as `"unknown"`),
and the partial slot is cleared; the spec's concrete
Partial/Partial/Final scenario yields exactly the stated segment. -/
theorem c2_wall_clock_conversion :
    (∀ (st : AppState) (text : String) (a b : Option ℚ),
        handleSTTResult st ⟨"final", text, a, b⟩ =
          { st with
            segments := st.segments ++
              [⟨st.activeName, st.activeColor,
                (wallTimes st.stream_start_wall_time a b).1,
                (wallTimes st.stream_start_wall_time a b).2, text⟩],
            liveText := "" }) ∧
    (∀ s a b : ℚ, wallTimes (some s) (some a) (some b) =
        (some (s + a), some (s + b))) ∧
    (∀ s a b : Option ℚ, s = none ∨ a = none ∨ b = none →
        wallTimes s a b = (none, none)) ∧
    (∀ (fmt : ℚ → String) (a b : Option ℚ), a = none ∨ b = none →
        formatTimestamp fmt a b = "unknown") ∧
    processResults ⟨[], "", some 1000, "Alice", "#1f77b4"⟩
        [⟨"partial", "hel", none, none⟩, ⟨"partial", "hello", none, none⟩,
         ⟨"final", "hello world", some 0, some 1.2⟩] =
      ⟨[⟨"Alice", "#1f77b4", some 1000, some 1001.2, "hello world"⟩],
       "", some 1000, "Alice", "#1f77b4"⟩ := by
  refine ⟨?_, ?_, ?_, ?_, ?_⟩
  · intro st text a b
    simp [handleSTTResult]
  · intro s a b
    rfl
  · rintro s a b (rfl | rfl | rfl)
    · cases a <;> cases b <;> rfl
    · cases s <;> cases b <;> rfl
    · cases s <;> cases a <;> rfl
  · rintro fmt a b (rfl | rfl)
    · cases b <;> rfl
    · cases a <;> rfl
  · simp [processResults, handleSTTResult, wallTimes]
    norm_num

/-- Witness for C2: the absent-time implication at a concrete input. -/
theorem c2_witness : wallTimes none (some 1) (some 2) = (none, none) :=
  c2_wall_clock_conversion.2.2.1 none (some 1) (some 2) (Or.inl rfl)

/-- C3: a final Vosk result whose text is empty is filtered inside
`_handle_final_result`: nothing is enqueued, so the accumulator appends
no segment and the live partial text is untouched. -/
theorem c3_empty_final_ignored (raw : RawFinal) (q : List STTResult)
    (h : pyStripStr raw.text = "") :
    handleFinalResult raw q = q ∧
      ∀ st : AppState,
        processResults st ((handleFinalResult raw q).drop q.length) = st := by
  have hq : handleFinalResult raw q = q := by
    simp [handleFinalResult, h]
  refine ⟨hq, fun st => ?_⟩
  rw [hq, List.drop_length]
  rfl

/-- Witness for C3 with an empty raw text and empty queue. -/
theorem c3_witness : handleFinalResult ⟨"", []⟩ [] = [] :=
  (c3_empty_final_ignored ⟨"", []⟩ [] (by rfl)).1

/-- C6: adding pairwise-distinct names to the empty registry gives the
i-th added speaker (0-based) the palette color at index `i mod 8`,
keeps registration order, and leaves the most recently added name
active. -/
theorem c6_palette_cycle (ns : List String) (hnd : ns.Nodup) :
    (foldAdd emptyRegistry ns).speakers.length = ns.length ∧
    (∀ i, i < ns.length →
        (foldAdd emptyRegistry ns).speakers.getD i ("", "") =
          (ns.getD i "", color_palette.getD (i % 8) "")) ∧
    (foldAdd emptyRegistry ns).active = ns.getLast? := by
  have hspec := foldAdd_spec ns emptyRegistry (by intro n _; simp [emptyRegistry, SpeakerRegistry.names]) hnd
  rw [hspec]
  refine ⟨?_, ?_, ?_⟩
  · simp [emptyRegistry, withColors_length]
  · intro i hi
    have := withColors_getD ns 0 i hi
    simp only [emptyRegistry, List.nil_append]
    rw [this]
    have h8 : color_palette.length = 8 := rfl
    simp [nextColor, h8]
  · cases ns with
    | nil => simp [emptyRegistry]
    | cons n rest =>
      simp [emptyRegistry, List.getLast?_cons, List.getLastD_cons]

/-- Witness for C6 on the two-name sequence `["Alice", "Bob"]`. -/
theorem c6_witness : (foldAdd emptyRegistry ["Alice", "Bob"]).active =
    ["Alice", "Bob"].getLast? :=
  (c6_palette_cycle ["Alice", "Bob"] (by decide)).2.2

/-- C7: adding a name already present reports the duplicate error and
returns the registry completely unchanged — same speakers, colors,
order, active speaker and color-cycle position. -/
theorem c7_duplicate_add (st : SpeakerRegistry) (name : String)
    (h : name ∈ st.names) :
    addSpeaker st name = (some .duplicateSpeaker, st) := by
  simp [addSpeaker, h]

/-- Witness for C7: re-adding `"Alice"`. -/
theorem c7_witness : addSpeaker (foldAdd emptyRegistry ["Alice"]) "Alice" =
    (some .duplicateSpeaker, foldAdd emptyRegistry ["Alice"]) :=
  c7_duplicate_add _ "Alice" (by decide)

/-- C8 counterexample: `set_active` on the absent name `"Bob"` produces
no error at all (the code silently returns) and leaves the registry
unchanged, refuting "fails with UnknownSpeakerError". -/
theorem c8_counterexample :
    (setActiveSpeaker (foldAdd emptyRegistry ["Alice"]) "Bob").1 = none ∧
    (setActiveSpeaker (foldAdd emptyRegistry ["Alice"]) "Bob").2 =
      foldAdd emptyRegistry ["Alice"] := by
  constructor <;> rfl

/-- C8 (amended): `set_active` with an absent name is a silent no-op —
no error and an unchanged registry — and `set_active` with a present
name makes exactly that name the (single) active speaker. -/
theorem c8_amended_set_active (st : SpeakerRegistry) (name : String) :
    (name ∉ st.names → setActiveSpeaker st name = (none, st)) ∧
    (name ∈ st.names →
      setActiveSpeaker st name = (none, { st with active := some name })) := by
  constructor <;> intro h <;> simp [setActiveSpeaker, h]

/-- Witness for the amended C8: activating the present name `"Alice"`. -/
theorem c8_witness : setActiveSpeaker (foldAdd emptyRegistry ["Alice"]) "Alice" =
    (none, { foldAdd emptyRegistry ["Alice"] with active := some "Alice" }) :=
  (c8_amended_set_active _ "Alice").2 (by decide)

/-- C9 counterexample: when the audio stream starts and the engine
start then raises, the failure handler reports the error with the audio
stream still running — no rollback of started components happens. -/
theorem c9_counterexample :
    (initWorker freshSession 0 true true true false).1.audioRunning = true ∧
    (initWorker freshSession 0 true true true false).1.isRunning = false ∧
    (initWorker freshSession 0 true true true false).2 = true := by
  refine ⟨rfl, rfl, rfl⟩

/-- C9 (amended): every start-up failure clears the running flag and
the stream start time and reports the failure, but does not stop
already-started components: if the engine start fails after the audio
stream started, the audio stream is left running. -/
theorem c9_amended_startup (st : SessionState) (wall : ℚ) (a b c d : Bool)
    (h : a = false ∨ b = false ∨ c = false ∨ d = false) :
    (initWorker st wall a b c d).1.isRunning = false ∧
    (initWorker st wall a b c d).1.streamStart = none ∧
    (initWorker st wall a b c d).2 = true ∧
    (a = true → b = true → c = true →
      (initWorker st wall a b c d).1.audioRunning = true) := by
  cases a <;> cases b <;> cases c <;> cases d <;>
    simp_all [initWorker, startFailureHandler]

/-- Witness for the amended C9: engine start fails on a fresh session. -/
theorem c9_witness : (initWorker freshSession 0 true true true false).1.streamStart = none :=
  (c9_amended_startup freshSession 0 true true true false
    (Or.inr (Or.inr (Or.inr rfl)))).2.1

/-- C10: each finalized segment carries the panel's active-speaker
snapshot at insertion time; the panel's pre-update defaults are
`"Unknown"` / `"#000000"`; and looking up a name absent from the
speaker registry yields `"#000000"` instead of an error. -/
theorem c10_active_speaker_snapshot :
    (∀ (st : AppState) (text : String) (a b : Option ℚ),
        (handleSTTResult st ⟨"final", text, a, b⟩).segments.getLast? =
          some ⟨st.activeName, st.activeColor,
            (wallTimes st.stream_start_wall_time a b).1,
            (wallTimes st.stream_start_wall_time a b).2, text⟩) ∧
    initialAppState.activeName = "Unknown" ∧
    initialAppState.activeColor = "#000000" ∧
    (∀ (reg : SpeakerRegistry) (name : String),
        name ∉ reg.names → getSpeakerColor reg name = "#000000") := by
  refine ⟨?_, rfl, rfl, ?_⟩
  · intro st text a b
    simp [handleSTTResult]
  · intro reg name h
    have := lookup_eq_none_of_not_mem_keys reg.speakers name h
    simp [getSpeakerColor, this]

/-- Witness for C10: an unregistered name gets the default color. -/
theorem c10_witness : getSpeakerColor emptyRegistry "Ghost" = "#000000" :=
  c10_active_speaker_snapshot.2.2.2 emptyRegistry "Ghost" (by decide)

/-- C4 counterexample: a text with a leading space — which contains no
`"] "` sequence at all — does not round-trip: the parser's greedy `\s*`
after the colon absorbs the leading space, so `" x"` comes back as
`"x"`. -/
theorem c4_counterexample :
    parseSentenceLine (formatLine "unknown".data "Alice".data " x".data) ≠
      some ("unknown".data, "Alice".data, " x".data) := by
  decide

/-- C4 (amended): formatting then parsing reproduces
`(timestamp, speaker, text)` exactly, provided the components are
single-line, the timestamp contains no `]`, the speaker name is
nonempty, colon-free and neither starts nor ends with whitespace, and
the text does not start with whitespace; the text may freely contain
`": "` (speaker matching stops at the first colon) and even `"] "`. -/
theorem c4_amended_roundtrip (ts sp tx : List Char)
    (hts : ']' ∉ ts) (_htsn : '\n' ∉ ts)
    (hspne : sp ≠ []) (hspc : ':' ∉ sp)
    (hsphead : sp.takeWhile isPySpace = [])
    (hsplast : sp.reverse.takeWhile isPySpace = [])
    (htx : tx.takeWhile isPySpace = []) (_htxn : '\n' ∉ tx) :
    parseSentenceLine (formatLine ts sp tx) = some (ts, sp, tx) := by
  obtain ⟨c, cs, rfl⟩ : ∃ c cs, sp = c :: cs := by
    cases sp with
    | nil => exact absurd rfl hspne
    | cons c cs => exact ⟨c, cs, rfl⟩
  have hspT : isPySpace ' ' = true := by decide
  have hc : isPySpace c = false := head_not_of_takeWhile_nil c cs hsphead
  have hline : formatLine ts (c :: cs) tx =
      '[' :: (ts ++ ']' :: ' ' :: c :: (cs ++ ':' :: ' ' :: tx)) := by
    simp [formatLine]
  have hsplit : splitAtRBracket (ts ++ ']' :: ' ' :: c :: (cs ++ ':' :: ' ' :: tx)) =
      some (ts, ' ' :: c :: (cs ++ ':' :: ' ' :: tx)) :=
    splitAtRBracket_append ts _ hts
  have hws : (' ' :: c :: (cs ++ ':' :: ' ' :: tx)).takeWhile isPySpace = [' '] := by
    simp [List.takeWhile_cons, hspT, hc]
  have hdrop1 : (' ' :: c :: (cs ++ ':' :: ' ' :: tx)).dropWhile isPySpace =
      c :: (cs ++ ':' :: ' ' :: tx) := by
    simp [List.dropWhile_cons, hspT, hc]
  have hcolon : (fun d => decide (d ≠ ':')) ':' = false := by decide
  have hall : ∀ d ∈ c :: cs, (fun d => decide (d ≠ ':')) d = true := by
    intro d hd
    simp only [decide_eq_true_eq]
    intro e
    exact hspc (e ▸ hd)
  have hsp_take : (c :: (cs ++ ':' :: ' ' :: tx)).takeWhile (fun d => d ≠ ':') =
      c :: cs :=
    takeWhile_append_stop (c :: cs) (' ' :: tx) hall hcolon
  have hsp_drop : (c :: (cs ++ ':' :: ' ' :: tx)).dropWhile (fun d => d ≠ ':') =
      ':' :: ' ' :: tx :=
    dropWhile_append_stop (c :: cs) (' ' :: tx) hall hcolon
  have htx_drop : (' ' :: tx).dropWhile isPySpace = tx := by
    rw [List.dropWhile_cons]
    simp [hspT, dropWhile_of_takeWhile_nil tx htx]
  have hstrip : pyStrip (c :: cs) = c :: cs := pyStrip_eq_self _ hsphead hsplast
  rw [hline]
  simp only [parseSentenceLine, hsplit, hws, hdrop1, hsp_take, hsp_drop,
    htx_drop, hstrip, List.isEmpty_cons]
  simp

/-- Witness for the amended C4: a text containing `": "` and `"] "`
round-trips exactly. -/
theorem c4_witness :
    parseSentenceLine (formatLine "12:00:00.000-12:00:01.200".data "Alice".data
        "so: it [works] fine".data) =
      some ("12:00:00.000-12:00:01.200".data, "Alice".data,
        "so: it [works] fine".data) :=
  c4_amended_roundtrip _ _ _ (by decide) (by decide) (by decide) (by decide)
    (by decide) (by decide) (by decide) (by decide)

/-- C5 (code-bug evaluation): `add_note` writes the note text on the
same line as the `"[<ts>] <speaker>: "` header, but `get_notes` keeps
only the lines after the first as the note body, so a one-line note
comes back with empty text — the round trip loses the body's first
line. -/
theorem c5_note_first_line_lost :
    getNotes (addNote [] "Alice".data "#1f77b4".data "unknown".data "hello".data) =
      [("unknown".data, "Alice".data, ([] : List Char))] := by
  decide

end SttGui
